import Mathlib

/-!
Shallow embedding of the valuation and projection engine of `src/app.py`
(ETF dashboard).  Python floats are modelled by `ℚ` where the code only
performs field arithmetic, and by `ℝ` where the code uses fractional powers
(`(1+r) ** n` in `estimate_years_to_target`).  SQLite rows are modelled by
structures; the external collaborators (price feed, dividend store lookups)
are passed as function parameters, mirroring the calls the Python code makes.
-/

namespace EtfDashboard

/-- A row of the `trades` table (`ts` omitted: it does not enter any
computation modelled here). -/
structure Trade where
  symbol : String
  shares : ℤ
  amount : ℚ
  reinvest : ℚ
deriving DecidableEq

/-- One per-symbol aggregate produced by the `GROUP BY symbol` query in
`get_trades_summary`. -/
structure TradeAgg where
  add_shares : ℤ
  add_amount : ℚ
  add_reinvest : ℚ
deriving DecidableEq

/-- `get_trades_summary` of `src/app.py`: the SQL `GROUP BY symbol` with
`SUM(shares)`, `SUM(amount)`, `SUM(reinvest)` is modelled by grouping the
trade list on its symbols (in order of first appearance); the Python loop
then accumulates `total_amount` and `total_reinvest` over the grouped rows
and sets `total_new_cash = max(0.0, total_amount - total_reinvest)`. -/
def get_trades_summary (ts : List Trade) :
    List (String × TradeAgg) × ℚ × ℚ × ℚ :=
  let syms := (ts.map (·.symbol)).dedup
  let summary := syms.map (fun s =>
    let g := ts.filter (fun t => t.symbol = s)
    (s, { add_shares := (g.map (·.shares)).sum
          add_amount := (g.map (·.amount)).sum
          add_reinvest := (g.map (·.reinvest)).sum }))
  let total_amount := (summary.map (fun x => x.2.add_amount)).sum
  let total_reinvest := (summary.map (fun x => x.2.add_reinvest)).sum
  (summary, total_amount, total_reinvest, max 0 (total_amount - total_reinvest))

/-- A row of the `holdings` table. -/
structure Holding where
  symbol : String
  name : String
  shares : ℤ
  cost : ℚ
deriving DecidableEq

/-- A row of the `dividends` table, as returned by `get_last_dividend_event`
(`note` omitted: unused by the engine). -/
structure DivEvent where
  date : String
  cash : ℚ
deriving DecidableEq

/-- One element of the `etf_rows` list built inside `compute_dashboard`. -/
structure EtfRow where
  symbol : String
  name : String
  shares : ℤ
  price : ℚ
  cost_total : ℚ
  mv : ℚ
  profit : ℚ
  pl_pct : ℚ
  div_total : ℚ
  profit_with_div : ℚ
  pl_with_div_pct : ℚ
deriving DecidableEq

/-- The per-holding body of the loop in `compute_dashboard`
(`src/app.py` lines 348-385).  `priceOf` stands for `fetch_price_tw`
(total: on failure it falls back to a default price), `divTotalOf` for
`get_dividends_total`.  Note that the loop reads `shares` and `cost`
directly from the `holdings` row; the trade ledger does not appear. -/
def etf_row_of (priceOf : String → ℚ) (divTotalOf : String → ℚ)
    (h : Holding) : EtfRow :=
  let price := priceOf h.symbol
  let cost_total := (h.shares : ℚ) * h.cost
  let mv := (h.shares : ℚ) * price
  let profit := mv - cost_total
  let pl_pct := if cost_total ≠ 0 then profit / cost_total * 100 else 0
  let div_total := divTotalOf h.symbol
  let profit_with_div := profit + div_total
  let pl_with_div_pct :=
    if cost_total ≠ 0 then profit_with_div / cost_total * 100 else 0
  { symbol := h.symbol, name := h.name, shares := h.shares, price := price
    cost_total := cost_total, mv := mv, profit := profit, pl_pct := pl_pct
    div_total := div_total, profit_with_div := profit_with_div
    pl_with_div_pct := pl_with_div_pct }

/-- The `etf_rows` list of `compute_dashboard`: one row per holdings row,
in table order. -/
def dashboard_rows (priceOf : String → ℚ) (divTotalOf : String → ℚ)
    (holdings : List Holding) : List EtfRow :=
  holdings.map (etf_row_of priceOf divTotalOf)

/-- Portfolio totals of `compute_dashboard` (`src/app.py` lines 342-344,
369-371, 387-390): `total_cost`, `total_mv`, `total_dividends` accumulate
over the rows; the percentage fields guard on the truthiness of
`total_cost`. -/
structure Totals where
  total_cost : ℚ
  total_mv : ℚ
  total_profit : ℚ
  total_profit_with_div : ℚ
  total_pl_pct : ℚ
  total_pl_with_div_pct : ℚ
  total_dividends : ℚ
deriving DecidableEq

/-- Totals computed from the `etf_rows` list exactly as the loop in
`compute_dashboard` accumulates them. -/
def totals_of (rows : List EtfRow) : Totals :=
  let total_cost := (rows.map (·.cost_total)).sum
  let total_mv := (rows.map (·.mv)).sum
  let total_dividends := (rows.map (·.div_total)).sum
  let total_profit := total_mv - total_cost
  let total_profit_with_div := total_profit + total_dividends
  { total_cost := total_cost, total_mv := total_mv
    total_profit := total_profit
    total_profit_with_div := total_profit_with_div
    total_pl_pct :=
      if total_cost ≠ 0 then total_profit / total_cost * 100 else 0
    total_pl_with_div_pct :=
      if total_cost ≠ 0 then total_profit_with_div / total_cost * 100 else 0
    total_dividends := total_dividends }

/-- The `dca_compare` block of `compute_dashboard` (`src/app.py` lines
398-403): both fields start as `None` and are assigned only when
`dca_total_all > 0 and total_mv > 0`. -/
structure DcaCompare where
  dca_total_all : ℚ
  profit_vs_dca : Option ℚ
  pl_vs_dca_pct : Option ℚ
deriving DecidableEq

/-- `profit_vs_dca` / `pl_vs_dca_pct` computation of `compute_dashboard`. -/
def dca_compare_of (dca_total_all total_mv : ℚ) : DcaCompare :=
  if 0 < dca_total_all ∧ 0 < total_mv then
    { dca_total_all := dca_total_all
      profit_vs_dca := some (total_mv - dca_total_all)
      pl_vs_dca_pct := some ((total_mv - dca_total_all) / dca_total_all * 100) }
  else
    { dca_total_all := dca_total_all
      profit_vs_dca := none
      pl_vs_dca_pct := none }

/-- One entry of the list returned by `compute_fill_infos`
(`fill_ratio` of the source is named `fill_pct` here). -/
structure FillInfo where
  symbol : String
  name : String
  last_date : String
  pre_close : ℚ
  now_price : ℚ
  div_per_share : ℚ
  fill_pct : ℚ
  gap_to_fill : ℚ
deriving DecidableEq

/-- The per-row body of the loop in `compute_fill_infos` (`src/app.py`
lines 270-311); `none` models `continue`.  `lastEv` stands for
`get_last_dividend_event` (a DB query), `preEx` for
`get_pre_ex_close_price` (a price-feed lookup keyed on symbol and the
event's date, returning `None` on an empty history). -/
def fill_info_of (lastEv : String → Option DivEvent)
    (preEx : String → String → Option ℚ) (e : EtfRow) : Option FillInfo :=
  match lastEv e.symbol with
  | none => none
  | some ev =>
    if e.shares ≤ 0 then none
    else
      let dps := ev.cash / (e.shares : ℚ)
      match preEx e.symbol ev.date with
      | none => none
      | some pre_close =>
        let ex_ref_price := pre_close - dps
        let filled_amount := e.price - ex_ref_price
        let ratio_val := if 0 < dps then filled_amount / dps * 100 else 0
        let gap := max 0 (pre_close - e.price)
        some { symbol := e.symbol, name := e.name, last_date := ev.date
               pre_close := pre_close, now_price := e.price
               div_per_share := dps, fill_pct := ratio_val
               gap_to_fill := gap }

/-- `compute_fill_infos`: the loop appends one entry per row that passes
all the guards, in row order. -/
def compute_fill_infos (lastEv : String → Option DivEvent)
    (preEx : String → String → Option ℚ) (rows : List EtfRow) :
    List FillInfo :=
  rows.filterMap (fill_info_of lastEv preEx)

/-- Round-half-to-even on an exact rational, as CPython's `round` behaves on
the exactly representable floats `k * 0.25` that reach it in
`estimate_years_to_target`. -/
def roundHalfEven (x : ℚ) : ℤ :=
  let n := ⌊x⌋
  let f := x - (n : ℚ)
  if f < 1/2 then n
  else if 1/2 < f then n + 1
  else if n % 2 = 0 then n else n + 1

/-- `round(x, 1)` of the source, on exact rationals. -/
def round1 (x : ℚ) : ℚ := (roundHalfEven (10 * x) : ℚ) / 10

/-- `HOUSE_TARGET_LOW` of `src/app.py`. -/
def HOUSE_TARGET_LOW : ℚ := 6500000

/-- `HOUSE_TARGET_HIGH` of `src/app.py`. -/
def HOUSE_TARGET_HIGH : ℚ := 7500000

/-- `ANNUAL_RETURN` of `src/app.py` (`0.06`). -/
def ANNUAL_RETURN : ℚ := 6/100

/-- `MONTHLY_DCA` of `src/app.py`. -/
def MONTHLY_DCA : ℚ := 5000

/-- The projected value `fv_lump + fv_dca` computed in the body of the loop
of `estimate_years_to_target`, over the reals (the source computes
`(1 + r) ** n` on floats with fractional `n`). -/
noncomputable def fv_total (current_value monthly_invest r : ℝ) (n : ℝ) : ℝ :=
  current_value * (1 + r) ^ n + (monthly_invest * 12) * ((1 + r) ^ n - 1) / r

open Classical in
/-- The `while years <= 80` loop of `estimate_years_to_target`, indexed by
the step count `k` (so `years = k * 0.25`, exactly, since `0.25 = 2 ^ (-2)`
and every reached `years` value is an exact float).  The loop guard
`years <= 80` is `(k : ℚ)/4 ≤ 80`; on success the source returns
`round(years, 1)`. -/
noncomputable def estimate_go (current_value monthly_invest r target : ℝ)
    (k : ℕ) : Option ℚ :=
  if hk : (k : ℚ) / 4 ≤ 80 then
    if target ≤ fv_total current_value monthly_invest r ((k : ℝ) / 4) then
      some (round1 ((k : ℚ) / 4))
    else
      estimate_go current_value monthly_invest r target (k + 1)
  else
    none
termination_by 321 - k
decreasing_by
  have hk320 : k ≤ 320 := by
    have : (k : ℚ) ≤ 320 := by linarith [hk]
    exact_mod_cast this
  omega

/-- `estimate_years_to_target` of `src/app.py` (lines 318-333): scan from
`years = 0` in steps of `0.25` while `years <= 80`, return
`round(years, 1)` at the first step where the projected value reaches the
target, and `None` when the loop exhausts. -/
noncomputable def estimate_years_to_target
    (current_value monthly_invest annual_return target : ℝ) : Option ℚ :=
  estimate_go current_value monthly_invest annual_return target 0

/-- The `house_goal` block of `compute_dashboard` (`src/app.py` lines
405-409). -/
structure HouseGoal where
  current_mv : ℚ
  diff_low : ℚ
  diff_high : ℚ
  years_low : Option ℚ
  years_high : Option ℚ

/-- `diff_low`, `diff_high`, `years_low`, `years_high` of
`compute_dashboard`: the two estimates are attempted only when
`current_mv > 0`. -/
noncomputable def house_goal_of (current_mv : ℚ) : HouseGoal :=
  { current_mv := current_mv
    diff_low := max 0 (HOUSE_TARGET_LOW - current_mv)
    diff_high := max 0 (HOUSE_TARGET_HIGH - current_mv)
    years_low :=
      if 0 < current_mv then
        estimate_years_to_target (current_mv : ℝ) (MONTHLY_DCA : ℝ)
          (ANNUAL_RETURN : ℝ) (HOUSE_TARGET_LOW : ℝ)
      else none
    years_high :=
      if 0 < current_mv then
        estimate_years_to_target (current_mv : ℝ) (MONTHLY_DCA : ℝ)
          (ANNUAL_RETURN : ℝ) (HOUSE_TARGET_HIGH : ℝ)
      else none }

/-- The `div_compare` block of `compute_dashboard`. -/
structure DivCompare where
  current_year : ℤ
  last_year : ℤ
  div_last_year : ℚ
  div_this_year : ℚ
  diff_div : ℚ

/-- The dictionary returned by `compute_dashboard`. -/
structure Dashboard where
  etfs : List EtfRow
  totals : Totals
  div_compare : DivCompare
  dca_compare : DcaCompare
  house_goal : HouseGoal
  fill_infos : List FillInfo

/-- `compute_dashboard` of `src/app.py` (lines 338-444).  External reads
are parameters: `priceOf` (`fetch_price_tw`), `divTotalOf`
(`get_dividends_total`), `divByYear` (`get_dividends_total_by_year`),
`currentYear` (`datetime.now().year`), `dcaTotalAll` (`get_dca_total()`),
`lastEv` (`get_last_dividend_event`), `preEx` (`get_pre_ex_close_price`),
and the `holdings` rows. -/
noncomputable def compute_dashboard (priceOf : String → ℚ)
    (divTotalOf : String → ℚ) (divByYear : ℤ → ℚ) (currentYear : ℤ)
    (dcaTotalAll : ℚ) (lastEv : String → Option DivEvent)
    (preEx : String → String → Option ℚ) (holdings : List Holding) :
    Dashboard :=
  let etf_rows := dashboard_rows priceOf divTotalOf holdings
  let t := totals_of etf_rows
  { etfs := etf_rows
    totals := t
    div_compare :=
      { current_year := currentYear
        last_year := currentYear - 1
        div_last_year := divByYear (currentYear - 1)
        div_this_year := divByYear currentYear
        diff_div := divByYear currentYear - divByYear (currentYear - 1) }
    dca_compare := dca_compare_of dcaTotalAll t.total_mv
    house_goal := house_goal_of t.total_mv
    fill_infos :=
      if etf_rows = [] then [] else compute_fill_infos lastEv preEx etf_rows }

/-! Helper lemmas. -/

lemma sum_filter_or (s : String) (L : List String) (hs : s ∉ L)
    (ts : List Trade) (f : Trade → ℚ) :
    ((ts.filter (fun t => t.symbol = s ∨ t.symbol ∈ L)).map f).sum
      = ((ts.filter (fun t => t.symbol = s)).map f).sum
        + ((ts.filter (fun t => t.symbol ∈ L)).map f).sum := by
  induction ts with
  | nil => simp
  | cons t r ih =>
    rw [List.filter_cons, List.filter_cons, List.filter_cons]
    by_cases h1 : t.symbol = s
    · have h2 : t.symbol ∉ L := h1 ▸ hs
      rw [if_pos (by simp [h1]), if_pos (by simp [h1]), if_neg (by simp [h2])]
      simp only [List.map_cons, List.sum_cons]
      rw [ih]
      ring
    · by_cases h2 : t.symbol ∈ L
      · rw [if_pos (by simp [h2]), if_neg (by simp [h1]), if_pos (by simp [h2])]
        simp only [List.map_cons, List.sum_cons]
        rw [ih]
        ring
      · rw [if_neg (by simp [h1, h2]), if_neg (by simp [h1]),
          if_neg (by simp [h2])]
        exact ih

lemma sum_over_nodup (ts : List Trade) (f : Trade → ℚ) :
    ∀ L : List String, L.Nodup →
      (L.map (fun s => ((ts.filter (fun t => t.symbol = s)).map f).sum)).sum
        = ((ts.filter (fun t => t.symbol ∈ L)).map f).sum := by
  intro L hL
  induction L with
  | nil => simp
  | cons s L ih =>
    rcases List.nodup_cons.mp hL with ⟨hs, hL2⟩
    have hmem : ts.filter (fun t => t.symbol ∈ s :: L)
        = ts.filter (fun t => t.symbol = s ∨ t.symbol ∈ L) := by
      apply List.filter_congr
      intro a _
      simp [List.mem_cons]
    rw [List.map_cons, List.sum_cons, ih hL2, hmem,
      sum_filter_or s L hs ts f]

lemma sum_grouped (ts : List Trade) (f : Trade → ℚ) :
    (((ts.map (·.symbol)).dedup).map
        (fun s => ((ts.filter (fun t => t.symbol = s)).map f).sum)).sum
      = (ts.map f).sum := by
  rw [sum_over_nodup ts f _ (List.nodup_dedup _)]
  have hself : ts.filter (fun t => t.symbol ∈ (ts.map (·.symbol)).dedup) = ts := by
    apply List.filter_eq_self.mpr
    intro t ht
    simp only [List.mem_dedup, List.mem_map, decide_eq_true_eq]
    exact ⟨t, ht, rfl⟩
  rw [hself]

/-! Theorems for the claims. -/

/-- C10: for every set of trades, the `total_new_cash` figure of
`get_trades_summary` equals `max 0 (sum of all amounts - sum of all
reinvested amounts)`, hence is never negative even when the reinvested
total exceeds the amount total. -/
theorem total_new_cash_eq (ts : List Trade) :
    (get_trades_summary ts).2.2.2
      = max 0 ((ts.map (·.amount)).sum - (ts.map (·.reinvest)).sum) := by
  simp only [get_trades_summary, List.map_map, Function.comp_def]
  rw [sum_grouped ts (·.amount), sum_grouped ts (·.reinvest)]

/-- C1 counterexample: for the base holding `(shares = 100, cost = 10)` and
the single trade `(shares = 100, amount = 2000)` the ledger aggregate for
the symbol is `(100, 2000, 0)` (not both zero), yet the dashboard row keeps
`shares = 100` and `cost_total = 1000` (average cost `10`): the merge the
claim describes does not happen, in particular `shares ≠ 200`. -/
theorem dashboard_ignores_ledger_cex :
    (get_trades_summary [⟨"0050", 100, 2000, 0⟩]).1
        = [("0050", ⟨100, 2000, 0⟩)]
      ∧ (etf_row_of (fun _ => 15) (fun _ => 0) ⟨"0050", "X", 100, 10⟩).shares = 100
      ∧ (etf_row_of (fun _ => 15) (fun _ => 0) ⟨"0050", "X", 100, 10⟩).cost_total
          = 1000
      ∧ ¬ ((etf_row_of (fun _ => 15) (fun _ => 0)
            ⟨"0050", "X", 100, 10⟩).shares = 100 + 100) := by
  refine ⟨by simp [get_trades_summary], by simp [etf_row_of], ?_, ?_⟩
  · norm_num [etf_row_of]
  · norm_num [etf_row_of]

/-- C1 (amended): `compute_dashboard` does not apply the ledger aggregates
of `get_trades_summary` to positions at all; every dashboard row carries
the base holding unchanged: `shares = S0` and `cost_total = S0 × C0`. -/
theorem dashboard_uses_base_position (priceOf divTotalOf : String → ℚ)
    (h : Holding) :
    (etf_row_of priceOf divTotalOf h).shares = h.shares
      ∧ (etf_row_of priceOf divTotalOf h).cost_total
          = (h.shares : ℚ) * h.cost :=
  ⟨rfl, rfl⟩

/-- C2: for every base holdings list and an all-zero ledger aggregate, the
dashboard positions are the base positions unchanged, and every symbol of
the base holdings appears in the output (one row per holding, in order). -/
theorem merge_identity (priceOf divTotalOf : String → ℚ)
    (ts : List Trade) (holdings : List Holding)
    (hzero : ∀ x ∈ (get_trades_summary ts).1,
        x.2.add_shares = 0 ∧ x.2.add_amount = 0) :
    (dashboard_rows priceOf divTotalOf holdings).map
        (fun r => (r.symbol, r.shares, r.cost_total))
      = holdings.map (fun h => (h.symbol, h.shares, (h.shares : ℚ) * h.cost)) := by
  simp [dashboard_rows, List.map_map, Function.comp, etf_row_of]

/-- Witness for C2 at a concrete input: empty ledger, one base holding. -/
theorem merge_identity_witness :
    (∀ x ∈ (get_trades_summary ([] : List Trade)).1,
        x.2.add_shares = 0 ∧ x.2.add_amount = 0)
      ∧ (dashboard_rows (fun _ => 15) (fun _ => 0) [⟨"0050", "X", 100, 10⟩]).map
          (fun r => (r.symbol, r.shares, r.cost_total))
        = ([⟨"0050", "X", 100, 10⟩] : List Holding).map
            (fun h => (h.symbol, h.shares, (h.shares : ℚ) * h.cost)) := by
  have hz : ∀ x ∈ (get_trades_summary ([] : List Trade)).1,
      x.2.add_shares = 0 ∧ x.2.add_amount = 0 := by
    intro x hx
    simp [get_trades_summary] at hx
  exact ⟨hz, merge_identity (fun _ => 15) (fun _ => 0) []
    [⟨"0050", "X", 100, 10⟩] hz⟩

/-- C5: every entry produced by the fill estimator satisfies the fill
formulas: the percentage equals `filled_amount / div_per_share * 100` when
`div_per_share > 0` and `0` otherwise, where
`filled_amount = now_price - (pre_close - div_per_share)`, and the gap to
fill equals `max 0 (pre_close - now_price)`. -/
theorem fill_info_formulas (lastEv : String → Option DivEvent)
    (preEx : String → String → Option ℚ) (rows : List EtfRow)
    (f : FillInfo) (hf : f ∈ compute_fill_infos lastEv preEx rows) :
    f.fill_pct
        = (if 0 < f.div_per_share then
            (f.now_price - (f.pre_close - f.div_per_share))
              / f.div_per_share * 100
          else 0)
      ∧ f.gap_to_fill = max 0 (f.pre_close - f.now_price) := by
  rcases List.mem_filterMap.mp hf with ⟨e, _, hfe⟩
  cases hle : lastEv e.symbol with
  | none => simp [fill_info_of, hle] at hfe
  | some ev =>
    by_cases hsh : e.shares ≤ 0
    · simp [fill_info_of, hle, hsh] at hfe
    · cases hpe : preEx e.symbol ev.date with
      | none => simp [fill_info_of, hle, hsh, hpe] at hfe
      | some pc =>
        simp only [fill_info_of, hle, hsh, hpe, if_false] at hfe
        cases hfe
        constructor <;> rfl

/-- Witness for C5: the spec's exact-recovery instance, with
`pre_ex_close = 100`, per-share dividend `2` (cash `20` over `10` shares)
and current price `98`: the entry is produced, the percentage is `0` and
the gap is `2`. -/
theorem fill_info_formulas_witness :
    ((⟨"0050", "X", "2025-09-16", 100, 98, 2, 0, 2⟩ : FillInfo)
        ∈ compute_fill_infos (fun _ => some ⟨"2025-09-16", 20⟩)
            (fun _ _ => some 100)
            [⟨"0050", "X", 10, 98, 100, 980, 880, 0, 0, 880, 0⟩])
      ∧ (⟨"0050", "X", "2025-09-16", 100, 98, 2, 0, 2⟩ : FillInfo).fill_pct = 0
      ∧ (⟨"0050", "X", "2025-09-16", 100, 98, 2, 0, 2⟩ : FillInfo).gap_to_fill
          = 2 := by
  have hmem : (⟨"0050", "X", "2025-09-16", 100, 98, 2, 0, 2⟩ : FillInfo)
      ∈ compute_fill_infos (fun _ => some ⟨"2025-09-16", 20⟩)
          (fun _ _ => some 100)
          [⟨"0050", "X", 10, 98, 100, 980, 880, 0, 0, 880, 0⟩] := by
    have hl : compute_fill_infos (fun _ => some ⟨"2025-09-16", 20⟩)
        (fun _ _ => some 100)
        [⟨"0050", "X", 10, 98, 100, 980, 880, 0, 0, 880, 0⟩]
        = [⟨"0050", "X", "2025-09-16", 100, 98, 2, 0, 2⟩] := by
      simp [compute_fill_infos, fill_info_of]
      norm_num
    rw [hl]
    exact List.mem_singleton.mpr rfl
  have h := fill_info_formulas _ _ _ _ hmem
  refine ⟨hmem, ?_, ?_⟩
  · rw [h.1]; norm_num
  · rw [h.2]; norm_num

/-- C6: the fill estimator produces an entry for a row exactly when
`shares > 0`, a last dividend event exists for the symbol, and a pre-ex
closing price is obtained; a row failing any guard contributes nothing to
the output (and the per-share division only happens under `shares > 0`). -/
theorem fill_info_skip_conditions (lastEv : String → Option DivEvent)
    (preEx : String → String → Option ℚ) (e : EtfRow) (rows : List EtfRow) :
    (compute_fill_infos lastEv preEx (e :: rows)
        = (match fill_info_of lastEv preEx e with
           | some f => f :: compute_fill_infos lastEv preEx rows
           | none => compute_fill_infos lastEv preEx rows))
      ∧ ((fill_info_of lastEv preEx e).isSome
          ↔ 0 < e.shares
            ∧ ∃ ev, lastEv e.symbol = some ev
                ∧ (preEx e.symbol ev.date).isSome) := by
  constructor
  · simp [compute_fill_infos, List.filterMap_cons]
    cases fill_info_of lastEv preEx e <;> simp
  · cases hle : lastEv e.symbol with
    | none => simp [fill_info_of, hle]
    | some ev =>
      by_cases hsh : e.shares ≤ 0
      · simp [fill_info_of, hle, hsh, not_lt.mpr hsh]
      · cases hpe : preEx e.symbol ev.date with
        | none => simp [fill_info_of, hle, hsh, hpe, not_le.mp hsh]
        | some pc =>
          simp [fill_info_of, hle, hsh, hpe, not_le.mp hsh]

/-- C7: a row with `cost_total = 0` has both percentage fields equal to
`0`, and a portfolio with `total_cost = 0` has both total percentage
fields equal to `0` (the guards on the truthiness of the cost make the
division never happen). -/
theorem percentage_safety (priceOf divTotalOf : String → ℚ) (h : Holding)
    (rows : List EtfRow) :
    ((etf_row_of priceOf divTotalOf h).cost_total = 0 →
        (etf_row_of priceOf divTotalOf h).pl_pct = 0
          ∧ (etf_row_of priceOf divTotalOf h).pl_with_div_pct = 0)
      ∧ ((totals_of rows).total_cost = 0 →
        (totals_of rows).total_pl_pct = 0
          ∧ (totals_of rows).total_pl_with_div_pct = 0) := by
  constructor
  · intro h0
    simp only [etf_row_of] at h0 ⊢
    rw [if_neg (by simp [h0]), if_neg (by simp [h0])]
    exact ⟨rfl, rfl⟩
  · intro h0
    simp only [totals_of] at h0 ⊢
    rw [if_neg (by simp [h0]), if_neg (by simp [h0])]
    exact ⟨rfl, rfl⟩

/-- Witness for C7 at a concrete input: one zero-share holding and an
empty row list. -/
theorem percentage_safety_witness :
    ((etf_row_of (fun _ => 15) (fun _ => 7) ⟨"0050", "X", 0, 10⟩).pl_pct = 0
      ∧ (etf_row_of (fun _ => 15) (fun _ => 7)
          ⟨"0050", "X", 0, 10⟩).pl_with_div_pct = 0)
      ∧ ((totals_of []).total_pl_pct = 0
        ∧ (totals_of []).total_pl_with_div_pct = 0) := by
  have hp := percentage_safety (fun _ => 15) (fun _ => 7) ⟨"0050", "X", 0, 10⟩ []
  exact ⟨hp.1 (by norm_num [etf_row_of]), hp.2 (by simp [totals_of])⟩

/-- C8 counterexample: with an empty holdings list (market value `0`) and a
positive contribution total `100`, the contribution-vs-market-value fields
are absent, although the claim predicts presence from a positive
contribution total alone. -/
theorem dca_compare_absent_cex :
    (0 : ℚ) < 100
      ∧ (compute_dashboard (fun _ => 0) (fun _ => 0) (fun _ => 0) 2025 100
          (fun _ => none) (fun _ _ => none) []).dca_compare.profit_vs_dca = none
      ∧ (compute_dashboard (fun _ => 0) (fun _ => 0) (fun _ => 0) 2025 100
          (fun _ => none) (fun _ _ => none) []).dca_compare.pl_vs_dca_pct
          = none := by
  refine ⟨by norm_num, ?_, ?_⟩ <;>
    norm_num [compute_dashboard, dashboard_rows, totals_of, dca_compare_of]

/-- C8 (amended): the comparison fields are present exactly when the
contribution total and the total market value are both positive, and then
`profit_vs_dca = total_mv - dca_total_all` and
`pl_vs_dca_pct = profit_vs_dca / dca_total_all * 100`. -/
theorem dca_compare_presence (dca mv : ℚ) :
    ((dca_compare_of dca mv).profit_vs_dca.isSome ↔ 0 < dca ∧ 0 < mv)
      ∧ ((dca_compare_of dca mv).pl_vs_dca_pct.isSome ↔ 0 < dca ∧ 0 < mv)
      ∧ (0 < dca → 0 < mv →
          (dca_compare_of dca mv).profit_vs_dca = some (mv - dca)
            ∧ (dca_compare_of dca mv).pl_vs_dca_pct
                = some ((mv - dca) / dca * 100)) := by
  by_cases hc : 0 < dca ∧ 0 < mv
  · simp [dca_compare_of, hc]
  · refine ⟨by simp [dca_compare_of, hc], by simp [dca_compare_of, hc], ?_⟩
    intro h1 h2
    exact absurd ⟨h1, h2⟩ hc

/-- Witness for C8 at a concrete input: contribution total `100`, market
value `300`. -/
theorem dca_compare_presence_witness :
    (dca_compare_of 100 300).profit_vs_dca = some 200
      ∧ (dca_compare_of 100 300).pl_vs_dca_pct = some 200 := by
  have h := (dca_compare_presence 100 300).2.2 (by norm_num) (by norm_num)
  refine ⟨?_, ?_⟩
  · rw [h.1]; norm_num
  · rw [h.2]; norm_num

/-! Lemmas about the goal-projection loop. -/

lemma guard_iff (k : ℕ) : ((k : ℚ) / 4 ≤ 80 ↔ k ≤ 320) := by
  rw [div_le_iff₀ (by norm_num : (0:ℚ) < 4)]
  constructor
  · intro h
    exact_mod_cast h
  · intro h
    have : (k : ℚ) ≤ 320 := by exact_mod_cast h
    linarith

lemma estimate_go_unfold (cv mi r tgt : ℝ) (k : ℕ) :
    estimate_go cv mi r tgt k
      = if (k : ℚ) / 4 ≤ 80 then
          (if tgt ≤ fv_total cv mi r ((k : ℝ) / 4) then
            some (round1 ((k : ℚ) / 4))
          else estimate_go cv mi r tgt (k + 1))
        else none := by
  rw [estimate_go]
  simp

lemma fv_total_zero (cv mi r : ℝ) : fv_total cv mi r 0 = cv := by
  simp [fv_total]

lemma round1_zero : round1 0 = 0 := by
  norm_num [round1, roundHalfEven]

lemma estimate_go_none_of_all_fail (cv mi r tgt : ℝ)
    (hfail : ∀ k : ℕ, k ≤ 320 → ¬ tgt ≤ fv_total cv mi r ((k : ℝ) / 4)) :
    ∀ i : ℕ, estimate_go cv mi r tgt i = none := by
  have H : ∀ d i : ℕ, 321 - i ≤ d → estimate_go cv mi r tgt i = none := by
    intro d
    induction d with
    | zero =>
      intro i hi
      have hg : ¬ ((i : ℚ) / 4 ≤ 80) := by
        rw [guard_iff]
        omega
      rw [estimate_go_unfold, if_neg hg]
    | succ d ih =>
      intro i hi
      by_cases hg : (i : ℚ) / 4 ≤ 80
      · have hi320 : i ≤ 320 := (guard_iff i).mp hg
        rw [estimate_go_unfold, if_pos hg, if_neg (hfail i hi320)]
        exact ih (i + 1) (by omega)
      · rw [estimate_go_unfold, if_neg hg]
  intro i
  exact H 321 i (by omega)

lemma estimate_go_eq_some_of_first (cv mi r tgt : ℝ) (k : ℕ) (hk : k ≤ 320)
    (hsat : tgt ≤ fv_total cv mi r ((k : ℝ) / 4)) :
    ∀ i : ℕ, i ≤ k →
      (∀ j : ℕ, i ≤ j → j < k → ¬ tgt ≤ fv_total cv mi r ((j : ℝ) / 4)) →
      estimate_go cv mi r tgt i = some (round1 ((k : ℚ) / 4)) := by
  have H : ∀ d i : ℕ, k - i ≤ d → i ≤ k →
      (∀ j : ℕ, i ≤ j → j < k → ¬ tgt ≤ fv_total cv mi r ((j : ℝ) / 4)) →
      estimate_go cv mi r tgt i = some (round1 ((k : ℚ) / 4)) := by
    intro d
    induction d with
    | zero =>
      intro i hd hik _
      have hik2 : i = k := by omega
      subst hik2
      rw [estimate_go_unfold, if_pos ((guard_iff i).mpr hk), if_pos hsat]
    | succ d ih =>
      intro i hd hik hmin
      by_cases hik2 : i = k
      · subst hik2
        rw [estimate_go_unfold, if_pos ((guard_iff i).mpr hk), if_pos hsat]
      · have hlt : i < k := lt_of_le_of_ne hik hik2
        have hg : (i : ℚ) / 4 ≤ 80 := (guard_iff i).mpr (by omega)
        rw [estimate_go_unfold, if_pos hg, if_neg (hmin i le_rfl hlt)]
        exact ih (i + 1) (by omega) (by omega)
          (fun j hj1 hj2 => hmin j (by omega) hj2)
  intro i h1 h2
  exact H k i (by omega) h1 h2

lemma estimate_go_some_inv (cv mi r tgt : ℝ) :
    ∀ i : ℕ, ∀ y : ℚ, estimate_go cv mi r tgt i = some y →
      ∃ k : ℕ, i ≤ k ∧ k ≤ 320 ∧ y = round1 ((k : ℚ) / 4) := by
  have H : ∀ d i : ℕ, ∀ y : ℚ, 321 - i ≤ d →
      estimate_go cv mi r tgt i = some y →
      ∃ k : ℕ, i ≤ k ∧ k ≤ 320 ∧ y = round1 ((k : ℚ) / 4) := by
    intro d
    induction d with
    | zero =>
      intro i y hd h
      have hg : ¬ ((i : ℚ) / 4 ≤ 80) := by
        rw [guard_iff]
        omega
      rw [estimate_go_unfold, if_neg hg] at h
      cases h
    | succ d ih =>
      intro i y hd h
      by_cases hg : (i : ℚ) / 4 ≤ 80
      · rw [estimate_go_unfold, if_pos hg] at h
        by_cases hs : tgt ≤ fv_total cv mi r ((i : ℝ) / 4)
        · rw [if_pos hs] at h
          refine ⟨i, le_rfl, (guard_iff i).mp hg, ?_⟩
          injection h with h
          exact h.symm
        · rw [if_neg hs] at h
          obtain ⟨k, hk1, hk2, hk3⟩ := ih (i + 1) y (by omega) h
          exact ⟨k, by omega, hk2, hk3⟩
      · rw [estimate_go_unfold, if_neg hg] at h
        cases h
  intro i y h
  exact H 321 i y (by omega) h

/-- C3: for a positive rate, the goal estimator returns
`round1 (k * 0.25)` for the first step `k` of the scan
`0, 0.25, ..., 80` at which the projected value reaches the target,
returns `none` when no step within the 80-year ceiling reaches it, and
returns `0.0` at the first iteration when the current value already
meets the target. -/
theorem estimate_years_to_target_correct (cv mi r tgt : ℝ) (hr : 0 < r) :
    (∀ k : ℕ, k ≤ 320 → tgt ≤ fv_total cv mi r ((k : ℝ) / 4) →
        (∀ j : ℕ, j < k → ¬ tgt ≤ fv_total cv mi r ((j : ℝ) / 4)) →
        estimate_years_to_target cv mi r tgt = some (round1 ((k : ℚ) / 4)))
      ∧ ((∀ k : ℕ, k ≤ 320 → ¬ tgt ≤ fv_total cv mi r ((k : ℝ) / 4)) →
          estimate_years_to_target cv mi r tgt = none)
      ∧ (tgt ≤ cv → estimate_years_to_target cv mi r tgt = some 0) := by
  refine ⟨?_, ?_, ?_⟩
  · intro k hk hsat hmin
    exact estimate_go_eq_some_of_first cv mi r tgt k hk hsat 0 (Nat.zero_le _)
      (fun j _ hj => hmin j hj)
  · intro hfail
    exact estimate_go_none_of_all_fail cv mi r tgt hfail 0
  · intro hcv
    have h0 : tgt ≤ fv_total cv mi r (((0 : ℕ) : ℝ) / 4) := by
      have : (((0 : ℕ) : ℝ) / 4) = 0 := by norm_num
      rw [this, fv_total_zero]
      exact hcv
    have h := estimate_go_eq_some_of_first cv mi r tgt 0 (by omega) h0 0
      le_rfl (fun j _ hj => absurd hj (Nat.not_lt_zero j))
    unfold estimate_years_to_target
    rw [h]
    norm_num [round1_zero]

/-- Witness for C3 at a concrete input: `current_value = 2` already meets
`target = 1`, so `0.0` is returned. -/
theorem estimate_years_to_target_correct_witness :
    (0 : ℝ) < 1 ∧ (1 : ℝ) ≤ 2
      ∧ estimate_years_to_target 2 0 1 1 = some 0 :=
  ⟨by norm_num, by norm_num,
    (estimate_years_to_target_correct 2 0 1 1 (by norm_num)).2.2 (by norm_num)⟩

lemma fv_total_quarter_sixteen :
    fv_total 1 0 15 (((1 : ℕ) : ℝ) / 4) = 2 := by
  have h16 : ((1 : ℝ) + 15) = (2 : ℝ) ^ ((4 : ℕ) : ℝ) := by
    rw [Real.rpow_natCast]
    norm_num
  have hq : (((1 : ℕ) : ℝ) / 4) = (4 : ℝ)⁻¹ := by norm_num
  unfold fv_total
  rw [hq, h16, ← Real.rpow_mul (by norm_num : (0:ℝ) ≤ 2)]
  norm_num

lemma estimate_ex_quarter : estimate_years_to_target 1 0 15 2 = some (1 / 5) := by
  unfold estimate_years_to_target
  have h0 : ¬ ((2 : ℝ) ≤ fv_total 1 0 15 (((0 : ℕ) : ℝ) / 4)) := by
    have : (((0 : ℕ) : ℝ) / 4) = 0 := by norm_num
    rw [this, fv_total_zero]
    norm_num
  rw [estimate_go_unfold, if_pos (by norm_num), if_neg h0,
    estimate_go_unfold, if_pos (by norm_num)]
  rw [if_pos (by rw [fv_total_quarter_sixteen])]
  norm_num [round1, roundHalfEven]

/-- C4 counterexample: with `current_value = 1`, no contribution, rate `15`
and `target = 2`, the scan succeeds at the second step (`years = 0.25`),
and `round(0.25, 1)` rounds half to even, giving `0.2`, which is not a
whole multiple of `0.25`. -/
theorem estimate_value_not_quarter_multiple_cex :
    estimate_years_to_target 1 0 15 2 = some (1 / 5)
      ∧ ¬ ∃ m : ℕ, (1 / 5 : ℚ) = (m : ℚ) * (1 / 4) := by
  refine ⟨estimate_ex_quarter, ?_⟩
  rintro ⟨m, hm⟩
  have h5 : ((5 * m : ℕ) : ℚ) = ((4 : ℕ) : ℚ) := by
    push_cast
    field_simp at hm
    linarith
  have h5n : 5 * m = 4 := Nat.cast_injective h5
  omega

/-- C4 (amended): every non-absent value returned by the goal estimator is
`round1` (round half to even at one decimal) of a quarter-year multiple
`k * 0.25` with `k ≤ 320`; for odd `k` this is not itself a multiple of
`0.25`. -/
theorem estimate_value_is_rounded_quarter_step (cv mi r tgt : ℝ) (y : ℚ)
    (hy : estimate_years_to_target cv mi r tgt = some y) :
    ∃ k : ℕ, k ≤ 320 ∧ y = round1 ((k : ℚ) / 4) := by
  obtain ⟨k, _, hk2, hk3⟩ := estimate_go_some_inv cv mi r tgt 0 y hy
  exact ⟨k, hk2, hk3⟩

/-- Witness for C4 at a concrete input. -/
theorem estimate_value_is_rounded_quarter_step_witness :
    estimate_years_to_target 1 0 15 2 = some (1 / 5)
      ∧ ∃ k : ℕ, k ≤ 320 ∧ (1 / 5 : ℚ) = round1 ((k : ℚ) / 4) :=
  ⟨estimate_ex_quarter,
    estimate_value_is_rounded_quarter_step 1 0 15 2 (1 / 5) estimate_ex_quarter⟩

/-- C9: when the total market value is not strictly positive the dashboard
reports both time-to-target estimates as absent. -/
theorem house_goal_absent_when_mv_nonpos (priceOf divTotalOf : String → ℚ)
    (divByYear : ℤ → ℚ) (currentYear : ℤ) (dcaTotalAll : ℚ)
    (lastEv : String → Option DivEvent) (preEx : String → String → Option ℚ)
    (holdings : List Holding)
    (hmv : (compute_dashboard priceOf divTotalOf divByYear currentYear
        dcaTotalAll lastEv preEx holdings).totals.total_mv ≤ 0) :
    (compute_dashboard priceOf divTotalOf divByYear currentYear dcaTotalAll
        lastEv preEx holdings).house_goal.years_low = none
      ∧ (compute_dashboard priceOf divTotalOf divByYear currentYear dcaTotalAll
          lastEv preEx holdings).house_goal.years_high = none := by
  have hneg : ¬ (0 < (compute_dashboard priceOf divTotalOf divByYear
      currentYear dcaTotalAll lastEv preEx holdings).totals.total_mv) :=
    not_lt.mpr hmv
  constructor
  · show (house_goal_of _).years_low = none
    unfold house_goal_of
    exact if_neg hneg
  · show (house_goal_of _).years_high = none
    unfold house_goal_of
    exact if_neg hneg

/-- Witness for C9 at a concrete input: empty holdings give market value
`0`. -/
theorem house_goal_absent_when_mv_nonpos_witness :
    (compute_dashboard (fun _ => 0) (fun _ => 0) (fun _ => 0) 2025 0
        (fun _ => none) (fun _ _ => none) []).totals.total_mv ≤ 0
      ∧ (compute_dashboard (fun _ => 0) (fun _ => 0) (fun _ => 0) 2025 0
          (fun _ => none) (fun _ _ => none) []).house_goal.years_low = none
      ∧ (compute_dashboard (fun _ => 0) (fun _ => 0) (fun _ => 0) 2025 0
          (fun _ => none) (fun _ _ => none) []).house_goal.years_high = none := by
  have hmv : (compute_dashboard (fun _ => 0) (fun _ => 0) (fun _ => 0) 2025 0
      (fun _ => none) (fun _ _ => none) []).totals.total_mv ≤ 0 := by
    norm_num [compute_dashboard, dashboard_rows, totals_of]
  have h := house_goal_absent_when_mv_nonpos (fun _ => 0) (fun _ => 0)
    (fun _ => 0) 2025 0 (fun _ => none) (fun _ _ => none) [] hmv
  exact ⟨hmv, h.1, h.2⟩

end EtfDashboard
